import Mathlib

/-
Verification of the bar-by-bar backtest engine, signal pipeline, metrics and
walk-forward objective of the repository (src/backtesting.py, src/config.py,
src/get_signals.py, src/metrics.py, src/optimize.py).

Machine floats are modelled by exact rationals; pandas timestamps by naturals.
The numeric kernels of the external `ta` indicator library (RSI, Bollinger,
Stochastic, MACD) are out of scope per the spec and are abstracted as function
parameters producing per-row optional values (`none` models NaN).
-/

namespace BT

/-- Side of a trade; the source stores the strings 'LONG' / 'SHORT'
(config.py, field `type`). -/
inductive Side where
  | LONG
  | SHORT
deriving DecidableEq

/-- Status of a trade; the source stores the strings 'OPEN' / 'CLOSED'
(config.py, field `status`). -/
inductive OpStatus where
  | OPEN
  | CLOSED
deriving DecidableEq

/-- The `Operation` dataclass of config.py lines 4-31, with its defaults:
`status='OPEN'`, `close_time=None`, `close_price=None`, `pnl=0.0`. -/
structure Operation where
  open_time : Nat
  open_price : ℚ
  n_shares : ℚ
  type : Side
  stop_loss : ℚ
  take_profit : ℚ
  status : OpStatus := OpStatus.OPEN
  close_time : Option Nat := none
  close_price : Option ℚ := none
  pnl : ℚ := 0
deriving DecidableEq

/-- The strategy-parameter dictionary produced by get_params_from_trial
(optimize.py lines 23-40): indicator windows and thresholds, SL/TP fractions,
sizing fraction, and the (engine-unused) `max_short_pct`. -/
structure Params where
  rsi_window : Nat
  rsi_lower : ℚ
  rsi_upper : ℚ
  bb_window : Nat
  stoch_window : Nat
  stoch_smooth_k : Nat
  stoch_buy_th : ℚ
  stoch_sell_th : ℚ
  macd_short_window : Nat
  macd_long_window : Nat
  macd_signal_window : Nat
  stop_loss : ℚ
  take_profit : ℚ
  pct_cash : ℚ
  max_short_pct : ℚ
deriving DecidableEq

/-- One row of the raw input DataFrame handed to run_backtest: datetime index,
OHLC prices, plus any caller-attached boolean signal columns (the engine is
claimed to ignore the latter). `open` is never read by the code under
verification and is omitted. -/
structure Bar where
  ts : Nat
  high : ℚ
  low : ℚ
  close : ℚ
  buy_signal : Bool := false
  sell_signal : Bool := false
deriving DecidableEq

/-- The price part of a raw row: the only columns read by
calculate_indicators / generate_signals / run_backtest. -/
structure PriceRow where
  ts : Nat
  high : ℚ
  low : ℚ
  close : ℚ
deriving DecidableEq

/-- Projection of a raw row to the columns the pipeline and engine read. -/
def Bar.price (b : Bar) : PriceRow :=
  { ts := b.ts, high := b.high, low := b.low, close := b.close }

/-- One row of the DataFrame produced by generate_signals, restricted to the
columns the simulation loop reads: the index, 'Close', 'buy_signal',
'sell_signal' (backtesting.py lines 36-37, 73, 81). -/
structure SigBar where
  ts : Nat
  close : ℚ
  buy_signal : Bool
  sell_signal : Bool
deriving DecidableEq

/-- A point of the equity curve: one entry of `portfolio_history`
(backtesting.py lines 29, 65, 98). -/
structure EquityPoint where
  ts : Nat
  value : ℚ
deriving DecidableEq

/-- The mutable simulation state of run_backtest: `cash`, `active_positions`,
`closed_trades_log`, `portfolio_history` (backtesting.py lines 26-29). -/
structure BTState where
  cash : ℚ
  active : List Operation
  closed : List Operation
  hist : List EquityPoint
deriving DecidableEq

/-- The tuple returned by run_backtest (backtesting.py line 115). -/
structure BTResult where
  cash : ℚ
  hist : List EquityPoint
  closed : List Operation
  active : List Operation
deriving DecidableEq

/-- Close condition for a LONG position (backtesting.py lines 43-44). -/
def longCloseCond (P : ℚ) (pos : Operation) : Bool :=
  pos.type = Side.LONG && (P ≥ pos.take_profit || P ≤ pos.stop_loss)

/-- Close condition for a SHORT position (backtesting.py lines 51-52). -/
def shortCloseCond (P : ℚ) (pos : Operation) : Bool :=
  pos.type = Side.SHORT && (P ≤ pos.take_profit || P ≥ pos.stop_loss)

/-- Section 3.1 of run_backtest (backtesting.py lines 41-59): walk the active
list in order; a triggered LONG credits `P·n·(1-commission)` and stores
`pnl = (P-open)·n`; a triggered SHORT credits `pnl + initial_margin` with
`pnl = (open-P)·n·(1-commission)` and `initial_margin = open·n·(1+commission)`.
Returns (new cash, surviving actives in order, positions closed this bar in
order). The Python iterates over a copy `active_positions[:]` while removing
from the original, which visits every element once in order, exactly as this
recursion does. -/
def closeStep (commission P cash : ℚ) : List Operation → ℚ × List Operation × List Operation
  | [] => (cash, [], [])
  | pos :: rest =>
    if longCloseCond P pos then
      let r := closeStep commission P (cash + P * pos.n_shares * (1 - commission)) rest
      (r.1, r.2.1,
        { pos with status := OpStatus.CLOSED,
                   pnl := (P - pos.open_price) * pos.n_shares } :: r.2.2)
    else if shortCloseCond P pos then
      let pnl := (pos.open_price - P) * pos.n_shares * (1 - commission)
      let initial_margin := pos.open_price * pos.n_shares * (1 + commission)
      let r := closeStep commission P (cash + pnl + initial_margin) rest
      (r.1, r.2.1, { pos with status := OpStatus.CLOSED, pnl := pnl } :: r.2.2)
    else
      let r := closeStep commission P cash rest
      (r.1, pos :: r.2.1, r.2.2)

/-- Mark-to-market of the LONG book (backtesting.py lines 62 and 92). -/
def longValue (P : ℚ) (active : List Operation) : ℚ :=
  ((active.filter (fun pos => pos.type = Side.LONG)).map
    (fun pos => pos.n_shares * P)).sum

/-- Per-bar short book valuation (backtesting.py lines 93-96): commission-free
margin `open·n` plus unrealized pnl `(open-P)·n`. -/
def shortEquity (P : ℚ) (active : List Operation) : ℚ :=
  ((active.filter (fun pos => pos.type = Side.SHORT)).map
    (fun pos => pos.open_price * pos.n_shares + (pos.open_price - P) * pos.n_shares)).sum

/-- Section 3.3 of run_backtest (backtesting.py lines 68-89): size by
`cash·pct_cash/P`; LONG branch first, SHORT only in the elif; each guarded by
its cash requirement. Returns (new cash, list of positions opened this bar). -/
def openStep (p : Params) (commission : ℚ) (b : SigBar) (cash : ℚ) :
    ℚ × List Operation :=
  let current_price := b.close
  let n_shares := cash * p.pct_cash / current_price
  if 0 < n_shares then
    let cost_of_long := current_price * n_shares * (1 + commission)
    if b.buy_signal ∧ cost_of_long ≤ cash then
      (cash - cost_of_long,
        [{ open_time := b.ts, open_price := current_price, n_shares := n_shares,
           type := Side.LONG,
           stop_loss := current_price * (1 - p.stop_loss),
           take_profit := current_price * (1 + p.take_profit) }])
    else if b.sell_signal then
      let position_margin := current_price * n_shares * (1 + commission)
      if position_margin ≤ cash then
        (cash - position_margin,
          [{ open_time := b.ts, open_price := current_price, n_shares := n_shares,
             type := Side.SHORT,
             stop_loss := current_price * (1 + p.stop_loss),
             take_profit := current_price * (1 - p.take_profit) }])
      else (cash, [])
    else (cash, [])
  else (cash, [])

/-- The body of the per-bar loop of run_backtest (backtesting.py lines 36-98):
close triggered positions, health-check the equity (on `≤ 0` record it and
skip the rest of the bar), open at most one new position, append the bar's
portfolio valuation. -/
def barStep (p : Params) (commission : ℚ) (s : BTState) (b : SigBar) : BTState :=
  let current_price := b.close
  let res := closeStep commission current_price s.cash s.active
  let cash1 := res.1
  let active1 := res.2.1
  let closed1 := s.closed ++ res.2.2
  let current_equity := cash1 + longValue current_price active1
  if current_equity ≤ 0 then
    { cash := cash1, active := active1, closed := closed1,
      hist := s.hist ++ [{ ts := b.ts, value := current_equity }] }
  else
    let opened := openStep p commission b cash1
    let cash2 := opened.1
    let active2 := active1 ++ opened.2
    let value := cash2 + longValue current_price active2 + shortEquity current_price active2
    { cash := cash2, active := active2, closed := closed1,
      hist := s.hist ++ [{ ts := b.ts, value := value }] }

/-- Section 4 of run_backtest (backtesting.py lines 101-108): force-close every
remaining position at the raw series' last close price, crediting cash with the
same formulas as the SL/TP closes; the positions themselves are neither removed
from the active list nor mutated. -/
def liquidationCash (commission last_price : ℚ) (cash : ℚ)
    (active : List Operation) : ℚ :=
  active.foldl (fun c pos =>
    match pos.type with
    | Side.LONG => c + last_price * pos.n_shares * (1 - commission)
    | Side.SHORT =>
        c + (pos.open_price - last_price) * pos.n_shares * (1 - commission)
          + pos.open_price * pos.n_shares * (1 + commission)) cash

/-- The overwrite `portfolio_history[-1]['value'] = cash` of backtesting.py
lines 110-111: replace the value of the last entry, keep its timestamp. -/
def setLastValue (v : ℚ) : List EquityPoint → List EquityPoint
  | [] => []
  | [e] => [{ e with value := v }]
  | e :: e' :: rest => e :: setLastValue v (e' :: rest)

/-- The simulation half of run_backtest (backtesting.py lines 25-115) on a
decorated bar sequence, i.e. after the `generate_signals ∘ calculate_indicators`
pre-computation of line 32. `first_ts` is `df.index[0]` of line 29 and
`last_price` is `df['Close'].iloc[-1]` of line 101, both taken from the raw
frame before warm-up rows are dropped. -/
def run_backtest_on_signals (bars : List SigBar) (first_ts : Nat)
    (last_price initial_cash commission : ℚ) (p : Params) : BTResult :=
  let s0 : BTState :=
    { cash := initial_cash, active := [], closed := [],
      hist := [{ ts := first_ts, value := initial_cash }] }
  let s := bars.foldl (barStep p commission) s0
  let final_cash := liquidationCash commission last_price s.cash s.active
  { cash := final_cash, hist := setLastValue final_cash s.hist,
    closed := s.closed, active := s.active }

/-- Abstract numeric kernels of the external `ta` library used by
calculate_indicators (get_signals.py lines 28-52). Each maps whole input
columns to a whole output column; `none` models a NaN produced by a warm-up
window. The spec places these numerics out of scope, so they are parameters
of the model rather than definitions. -/
structure IndicatorKernels where
  rsi : List ℚ → Nat → List (Option ℚ)
  bb_high : List ℚ → Nat → List (Option ℚ)
  bb_low : List ℚ → Nat → List (Option ℚ)
  stoch_k : List ℚ → List ℚ → List ℚ → Nat → Nat → List (Option ℚ)
  macd_line : List ℚ → Nat → Nat → List (Option ℚ)
  macd_signal_line : List ℚ → Nat → Nat → Nat → List (Option ℚ)

/-- One row of the DataFrame built by calculate_indicators, restricted to the
columns generate_signals and the engine read afterwards ('Close' and the six
indicator columns; get_signals.py lines 28-52, 79-89). Caller-attached boolean
signal columns are carried along by the pandas copies but are overwritten by
generate_signals before anything reads them, and being booleans they cannot
introduce NaNs into dropna, so they are dropped from this row type. -/
structure IndRow where
  ts : Nat
  close : ℚ
  rsi : Option ℚ
  bb_high : Option ℚ
  bb_low : Option ℚ
  stoch_k : Option ℚ
  macd_line : Option ℚ
  macd_signal_line : Option ℚ
deriving DecidableEq

/-- A row has a NaN in some computed column (the condition `df.dropna()`
removes it; get_signals.py line 54). -/
def IndRow.isna (r : IndRow) : Bool :=
  r.rsi.isNone || r.bb_high.isNone || r.bb_low.isNone ||
  r.stoch_k.isNone || r.macd_line.isNone || r.macd_signal_line.isNone

/-- The calculate_indicators function of get_signals.py lines 5-54: compute the
six indicator columns from 'High'/'Low'/'Close' via the kernels, align them
row-wise with the price frame, and drop every row holding a NaN. An index `i`
out of a kernel's output range behaves as NaN (the `ta` kernels always return
full-length columns, so this case is vacuous in practice). -/
def calculate_indicators (K : IndicatorKernels) (rows : List PriceRow)
    (p : Params) : List IndRow :=
  let closes := rows.map PriceRow.close
  let highs := rows.map PriceRow.high
  let lows := rows.map PriceRow.low
  let rsiCol := K.rsi closes p.rsi_window
  let bbHighCol := K.bb_high closes p.bb_window
  let bbLowCol := K.bb_low closes p.bb_window
  let stochCol := K.stoch_k highs lows closes p.stoch_window p.stoch_smooth_k
  let macdCol := K.macd_line closes p.macd_long_window p.macd_short_window
  let macdSigCol :=
    K.macd_signal_line closes p.macd_long_window p.macd_short_window p.macd_signal_window
  let joined := (List.range rows.length).filterMap fun i =>
    (rows[i]?).map fun r =>
      { ts := r.ts, close := r.close,
        rsi := (rsiCol[i]?).join, bb_high := (bbHighCol[i]?).join,
        bb_low := (bbLowCol[i]?).join, stoch_k := (stochCol[i]?).join,
        macd_line := (macdCol[i]?).join, macd_signal_line := (macdSigCol[i]?).join }
  joined.filter fun r => !r.isna

/-- Pandas comparison `a < b` on possibly-NaN values: False when either side
is NaN (models e.g. `df['rsi'] < params['rsi_lower']` on a NaN row). -/
def oLT (a b : Option ℚ) : Bool :=
  match a, b with
  | some x, some y => decide (x < y)
  | _, _ => false

/-- Pandas comparison `a > b` on possibly-NaN values: False when either side
is NaN. -/
def oGT (a b : Option ℚ) : Bool :=
  match a, b with
  | some x, some y => decide (y < x)
  | _, _ => false

/-- The generate_signals function of get_signals.py lines 57-108: four buy and
four sell conditions per row, consensus `>= 2`, written into the
'buy_signal'/'sell_signal' columns (overwriting them if present). Projected to
the columns the engine reads. -/
def generate_signals (rows : List IndRow) (p : Params) : List SigBar :=
  rows.map fun r =>
    let rsi_buy := oLT r.rsi (some p.rsi_lower)
    let rsi_sell := oGT r.rsi (some p.rsi_upper)
    let bb_buy := oLT (some r.close) r.bb_low
    let bb_sell := oGT (some r.close) r.bb_high
    let stoch_buy := oLT r.stoch_k (some p.stoch_buy_th)
    let stoch_sell := oGT r.stoch_k (some p.stoch_sell_th)
    let macd_buy := oGT r.macd_line r.macd_signal_line
    let macd_sell := oLT r.macd_line r.macd_signal_line
    let buy_signals : Nat :=
      (if rsi_buy then 1 else 0) + (if bb_buy then 1 else 0) +
      (if stoch_buy then 1 else 0) + (if macd_buy then 1 else 0)
    let sell_signals : Nat :=
      (if rsi_sell then 1 else 0) + (if bb_sell then 1 else 0) +
      (if stoch_sell then 1 else 0) + (if macd_sell then 1 else 0)
    { ts := r.ts, close := r.close,
      buy_signal := decide (2 ≤ buy_signals),
      sell_signal := decide (2 ≤ sell_signals) }

/-- The full run_backtest of backtesting.py lines 6-115: recompute signals from
the raw frame (line 32, reading only the price columns, High/Low/Close and the
index) and simulate. `df.index[0]` and `df['Close'].iloc[-1]` (lines 29, 101)
are read from the raw frame; defaults stand in for the exceptions Python would
raise on an empty frame. -/
def run_backtest (K : IndicatorKernels) (df : List Bar)
    (initial_cash commission : ℚ) (p : Params) : BTResult :=
  let prices := df.map Bar.price
  let sigs := generate_signals (calculate_indicators K prices p) p
  run_backtest_on_signals sigs
    ((prices.head?.map PriceRow.ts).getD 0)
    ((prices.getLast?.map PriceRow.close).getD 0)
    initial_cash commission p

/-- Number of distinct values: `Series.nunique()` (metrics.py line 19). -/
def nunique (l : List ℚ) : Nat := l.dedup.length

/-- The composite `portfolio_values.pct_change().dropna()` of metrics.py
line 21: consecutive simple returns, with the leading NaN dropped. Exact
rationals stand in for floats, so a zero predecessor divides to 0 here where
pandas would produce an infinity; the claims are settled on curves with
positive values, where the two agree. -/
def pct_change_dropna (l : List ℚ) : List ℚ :=
  (l.zip l.tail).map fun pr => (pr.2 - pr.1) / pr.1

/-- Arithmetic mean of a column, `Series.mean()`. -/
def listMean (l : List ℚ) : ℚ := l.sum / l.length

/-- Helper for the running maximum. -/
def cummaxAux (m : ℚ) : List ℚ → List ℚ
  | [] => []
  | x :: xs => max m x :: cummaxAux (max m x) xs

/-- Running maximum of a column, `Series.cummax()` (metrics.py line 26). -/
def cummax : List ℚ → List ℚ
  | [] => []
  | x :: xs => x :: cummaxAux x xs

/-- Maximum of a column, `Series.max()` (0 on the empty column, which the
callers never hit). -/
def listMax : List ℚ → ℚ
  | [] => 0
  | x :: xs => xs.foldl max x

/-- The drawdown series of metrics.py line 27:
`(cumulative_max - portfolio_values) / cumulative_max`, elementwise against
the running peak. -/
def drawdown_list (portfolio_vals : List ℚ) : List ℚ :=
  ((cummax portfolio_vals).zip portfolio_vals).map fun pr => (pr.1 - pr.2) / pr.1

/-- The fitness-only Calmar of metrics.py lines 5-29: sentinel -1.0 on an
empty or near-constant curve or empty returns, annualized mean return over
maximum drawdown otherwise, with the sentinel again when the drawdown is not
positive. -/
def calculate_calmar_for_optimization (portfolio_vals : List ℚ) : ℚ :=
  if portfolio_vals = [] ∨ nunique portfolio_vals < 2 then -1
  else
    let returns := pct_change_dropna portfolio_vals
    if returns = [] then -1
    else
      let annualized_return := listMean returns * (24 * 365)
      let max_drawdown := listMax (drawdown_list portfolio_vals)
      if 0 < max_drawdown then annualized_return / max_drawdown else -1

/-- The per-fold body of the walk-forward objective (optimize.py lines 65-70):
backtest the fold's evaluation window with fixed cash 1,000,000 and commission
0.00125 = 1/800, score -1.0 when fewer than 10 trades closed, the fitness-only
Calmar of the equity curve otherwise. -/
def fold_score (K : IndicatorKernels) (fold : List Bar) (p : Params) : ℚ :=
  let r := run_backtest K fold 1000000 (1 / 800) p
  if r.closed.length < 10 then -1
  else calculate_calmar_for_optimization (r.hist.map EquityPoint.value)

/-- The objective function of optimize.py lines 43-72 with the TimeSeriesSplit
evaluation windows abstracted as the list `folds`: accumulate one score per
fold exactly as the Python loop does, return their `np.mean`. -/
def objective (K : IndicatorKernels) (folds : List (List Bar)) (p : Params) : ℚ :=
  let results := folds.foldl (fun acc fold =>
    let r := run_backtest K fold 1000000 (1 / 800) p
    if r.closed.length < 10 then acc ++ [(-1 : ℚ)]
    else acc ++ [calculate_calmar_for_optimization (r.hist.map EquityPoint.value)]) []
  listMean results

/-- Count of active positions on one side (the claims' short-exposure ratio
is stated with these). -/
def countSide (sd : Side) (l : List Operation) : Nat :=
  (l.filter (fun o => o.type = sd)).length

/-- Value of the last equity-curve entry (`equity_curve[-1].value`). -/
def lastValue (h : List EquityPoint) : ℚ :=
  ((h.getLast?).map EquityPoint.value).getD 0

/-- Spec-side short-book valuation, written from the spec's words for claim
comparison only: "Equity for this bar = cash + Σ(long quantity · P) + Σ(short
margin + short unrealized pnl)" with `initial_margin = open_price · quantity ·
(1 + commission)` reserved at open. Differs from the source's `shortEquity`
by the `(1 + commission)` factor on the margin term. -/
def spec_short_equity (commission P : ℚ) (active : List Operation) : ℚ :=
  ((active.filter (fun pos => pos.type = Side.SHORT)).map
    (fun pos => pos.open_price * pos.n_shares * (1 + commission)
      + (pos.open_price - P) * pos.n_shares)).sum

/-- A concrete parameter set inside the search ranges of optimize.py lines
23-40 (commission-relevant fields chosen rational for exact evaluation). -/
def pEx : Params :=
  { rsi_window := 14, rsi_lower := 30, rsi_upper := 70, bb_window := 20,
    stoch_window := 14, stoch_smooth_k := 3, stoch_buy_th := 20, stoch_sell_th := 80,
    macd_short_window := 12, macd_long_window := 26, macd_signal_window := 9,
    stop_loss := 1 / 10, take_profit := 1 / 10, pct_cash := 1 / 2,
    max_short_pct := 1 / 2 }

/-- One decorated bar carrying only a sell signal; with 1000 cash, commission 0
and `pct_cash = 1/2` the engine opens a SHORT of 5 shares on it. -/
def c1_run : BTResult :=
  run_backtest_on_signals [{ ts := 0, close := 100, buy_signal := false, sell_signal := true }]
    0 100 1000 0 pEx

/-- Claim C1: at the failing input — a single bar whose only signal is sell,
ample cash, `max_short_pct = 1/2` — the engine accepts the SHORT although the
book after the entry is 1 short out of 1 position, ratio 1 > max_short_pct:
the short-exposure cap the claim describes is not enforced anywhere in
run_backtest (the parameter is tuned by optimize.py but never read). -/
theorem c1_short_cap_violated :
    countSide Side.SHORT c1_run.active = 1 ∧
    countSide Side.LONG c1_run.active = 0 ∧
    pEx.max_short_pct <
      (countSide Side.SHORT c1_run.active : ℚ) /
        ((countSide Side.LONG c1_run.active : ℚ) + (countSide Side.SHORT c1_run.active : ℚ)) := by
  norm_num +decide [run_backtest_on_signals, barStep, closeStep, openStep, longCloseCond, shortCloseCond, longValue, shortEquity, liquidationCash, setLastValue, pEx, c1_run, countSide]

/-- One decorated bar carrying only a buy signal; the LONG opened on it is
still active when the series ends. -/
def c2_run : BTResult :=
  run_backtest_on_signals [{ ts := 0, close := 100, buy_signal := true, sell_signal := false }]
    0 100 1000 0 pEx

/-- Claim C2, counterexample: after the final forced liquidation the last
equity entry does equal the returned cash, but the returned open-positions
list is not empty — the liquidation loop of backtesting.py lines 102-108
credits cash without removing anything from `active_positions`. -/
theorem c2_open_list_not_empty :
    c2_run.active.length = 1 ∧
    lastValue c2_run.hist = c2_run.cash ∧
    c2_run.active ≠ [] := by
  norm_num +decide [run_backtest_on_signals, barStep, closeStep, openStep, longCloseCond, shortCloseCond, longValue, shortEquity, liquidationCash, setLastValue, pEx, c2_run, lastValue]

/-- The state after one bar that opens a SHORT under commission 1/10. -/
def c4_state : BTState :=
  barStep pEx (1 / 10)
    { cash := 1000, active := [], closed := [], hist := [] }
    { ts := 0, close := 100, buy_signal := false, sell_signal := true }

/-- Claim C4, counterexample: on a non-degenerate bar (equity after closes is
1000 > 0) that opens a SHORT at price 100 with commission 1/10, the engine
appends equity 950 = cash + open_price·quantity, while the claim's formula
with the commission-inclusive reserved margin gives 1000: the valuation of
backtesting.py lines 93-96 uses `open_price · n_shares`, not
`open_price · n_shares · (1 + commission)`. -/
theorem c4_valuation_counterexample :
    0 < (closeStep (1 / 10) 100 1000 []).1 +
        longValue 100 (closeStep (1 / 10) 100 1000 []).2.1 ∧
    c4_state.hist = [{ ts := 0, value := 950 }] ∧
    c4_state.cash + longValue 100 c4_state.active +
      spec_short_equity (1 / 10) 100 c4_state.active = 1000 ∧
    (950 : ℚ) ≠ 1000 := by
  norm_num +decide [run_backtest_on_signals, barStep, closeStep, openStep, longCloseCond, shortCloseCond, longValue, shortEquity, liquidationCash, setLastValue, pEx, c4_state, spec_short_equity]

/-- Two decorated bars: a LONG opened at 100 on the first is take-profit
closed at 115 on the second. -/
def c6_run : BTResult :=
  run_backtest_on_signals
    [{ ts := 0, close := 100, buy_signal := true, sell_signal := false },
     { ts := 1, close := 115, buy_signal := false, sell_signal := false }]
    0 115 1000 0 pEx

/-- Claim C6, counterexample: the position closed by take-profit reaches
status CLOSED with its pnl stored, but its `close_time` and `close_price`
are still None — backtesting.py lines 43-59 never assign them. -/
theorem c6_close_fields_counterexample :
    c6_run.closed.map Operation.status = [OpStatus.CLOSED] ∧
    c6_run.closed.map Operation.pnl = [75] ∧
    c6_run.closed.map Operation.close_time = [none] ∧
    c6_run.closed.map Operation.close_price = [none] := by
  norm_num +decide [run_backtest_on_signals, barStep, closeStep, openStep, longCloseCond, shortCloseCond, longValue, shortEquity, liquidationCash, setLastValue, pEx, c6_run]

/-- A property preserved by every step of a fold holds of the fold's result. -/
theorem foldl_preserve {α β : Type} (P : α → Prop) (f : α → β → α)
    (hf : ∀ a b, P a → P (f a b)) :
    ∀ (l : List β) (s : α), P s → P (l.foldl f s)
  | [], _, hs => hs
  | b :: l, s, hs => foldl_preserve P f hf l (f s b) (hf s b hs)

/-- A triggered long close implies the position is a LONG. -/
theorem longCloseCond_type {P : ℚ} {pos : Operation}
    (h : longCloseCond P pos = true) : pos.type = Side.LONG := by
  simp [longCloseCond] at h
  exact h.1

/-- A triggered short close implies the position is a SHORT. -/
theorem shortCloseCond_type {P : ℚ} {pos : Operation}
    (h : shortCloseCond P pos = true) : pos.type = Side.SHORT := by
  simp [shortCloseCond] at h
  exact h.1

/-- Every position surviving the close pass was already in the active list,
unchanged. -/
theorem closeStep_active_mem (commission P : ℚ) :
    ∀ (cash : ℚ) (act : List Operation),
      ∀ op ∈ (closeStep commission P cash act).2.1, op ∈ act := by
  intro cash act
  induction act generalizing cash with
  | nil => simp [closeStep]
  | cons pos rest ih =>
    intro op hop
    by_cases h1 : longCloseCond P pos
    · simp only [closeStep, if_pos h1] at hop
      exact List.mem_cons_of_mem pos (ih _ op hop)
    · by_cases h2 : shortCloseCond P pos
      · simp only [closeStep, if_neg h1, if_pos h2] at hop
        exact List.mem_cons_of_mem pos (ih _ op hop)
      · simp only [closeStep, if_neg h1, if_neg h2, List.mem_cons] at hop
        rcases hop with rfl | hop
        · exact List.mem_cons_self op rest
        · exact List.mem_cons_of_mem pos (ih _ op hop)

/-- Every position the close pass emits is CLOSED and carries the pnl the
source stores for its side (backtesting.py lines 47 and 53-57). -/
theorem closeStep_closed_pnl (commission P : ℚ) :
    ∀ (cash : ℚ) (act : List Operation),
      ∀ op ∈ (closeStep commission P cash act).2.2,
        op.status = OpStatus.CLOSED ∧
        (op.type = Side.LONG → op.pnl = (P - op.open_price) * op.n_shares) ∧
        (op.type = Side.SHORT →
          op.pnl = (op.open_price - P) * op.n_shares * (1 - commission)) := by
  intro cash act
  induction act generalizing cash with
  | nil => simp [closeStep]
  | cons pos rest ih =>
    intro op hop
    by_cases h1 : longCloseCond P pos
    · simp only [closeStep, if_pos h1, List.mem_cons] at hop
      rcases hop with rfl | hop
      · refine ⟨rfl, fun _ => rfl, fun hty => ?_⟩
        simp only at hty
        rw [longCloseCond_type h1] at hty
        exact absurd hty (by simp)
      · exact ih _ op hop
    · by_cases h2 : shortCloseCond P pos
      · simp only [closeStep, if_neg h1, if_pos h2, List.mem_cons] at hop
        rcases hop with rfl | hop
        · refine ⟨rfl, fun hty => ?_, fun _ => rfl⟩
          simp only at hty
          rw [shortCloseCond_type h2] at hty
          exact absurd hty (by simp)
        · exact ih _ op hop
      · simp only [closeStep, if_neg h1, if_neg h2] at hop
        exact ih _ op hop

/-- Every position the close pass emits keeps the `close_time` and
`close_price` of its source position: the source never assigns them. -/
theorem closeStep_closed_src (commission P : ℚ) :
    ∀ (cash : ℚ) (act : List Operation),
      ∀ op ∈ (closeStep commission P cash act).2.2,
        ∃ src ∈ act, op.close_time = src.close_time ∧
          op.close_price = src.close_price := by
  intro cash act
  induction act generalizing cash with
  | nil => simp [closeStep]
  | cons pos rest ih =>
    intro op hop
    by_cases h1 : longCloseCond P pos
    · simp only [closeStep, if_pos h1, List.mem_cons] at hop
      rcases hop with rfl | hop
      · exact ⟨pos, List.mem_cons_self pos rest, rfl, rfl⟩
      · obtain ⟨src, hsrc, h⟩ := ih _ op hop
        exact ⟨src, List.mem_cons_of_mem pos hsrc, h⟩
    · by_cases h2 : shortCloseCond P pos
      · simp only [closeStep, if_neg h1, if_pos h2, List.mem_cons] at hop
        rcases hop with rfl | hop
        · exact ⟨pos, List.mem_cons_self pos rest, rfl, rfl⟩
        · obtain ⟨src, hsrc, h⟩ := ih _ op hop
          exact ⟨src, List.mem_cons_of_mem pos hsrc, h⟩
      · simp only [closeStep, if_neg h1, if_neg h2] at hop
        obtain ⟨src, hsrc, h⟩ := ih _ op hop
        exact ⟨src, List.mem_cons_of_mem pos hsrc, h⟩

/-- The cash after the close pass is the cash before plus, per emitted
position, the credit of backtesting.py line 45 (LONG) or line 55 (SHORT). -/
theorem closeStep_cash (commission P : ℚ) :
    ∀ (cash : ℚ) (act : List Operation),
      (closeStep commission P cash act).1 =
        cash + (((closeStep commission P cash act).2.2).map (fun op =>
          if op.type = Side.LONG then P * op.n_shares * (1 - commission)
          else op.pnl + op.open_price * op.n_shares * (1 + commission))).sum := by
  intro cash act
  induction act generalizing cash with
  | nil => simp [closeStep]
  | cons pos rest ih =>
    by_cases h1 : longCloseCond P pos
    · have hty := longCloseCond_type h1
      simp only [closeStep, if_pos h1, List.map_cons, List.sum_cons, ih, hty,
        eq_self_iff_true, if_true]
      ring
    · by_cases h2 : shortCloseCond P pos
      · have hty := shortCloseCond_type h2
        simp only [closeStep, if_neg h1, if_pos h2, List.map_cons, List.sum_cons, ih, hty]
        rw [if_neg (by simp : ¬(Side.SHORT = Side.LONG))]
        ring
      · simp only [closeStep, if_neg h1, if_neg h2, ih]

/-- The open pass opens at most one position per bar, freshly OPEN with
untouched close fields and zero pnl (the dataclass defaults). -/
theorem openStep_new (p : Params) (commission : ℚ) (b : SigBar) (cash : ℚ) :
    (openStep p commission b cash).2.length ≤ 1 ∧
    ∀ op ∈ (openStep p commission b cash).2,
      op.status = OpStatus.OPEN ∧ op.close_time = none ∧
      op.close_price = none ∧ op.pnl = 0 := by
  by_cases hn : 0 < cash * p.pct_cash / b.close
  · by_cases hb : b.buy_signal = true ∧ b.close * (cash * p.pct_cash / b.close) * (1 + commission) ≤ cash
    · simp [openStep, hn, hb]
    · by_cases hs : b.sell_signal = true
      · by_cases hm : b.close * (cash * p.pct_cash / b.close) * (1 + commission) ≤ cash
        · have hbb : ¬(b.buy_signal = true) := fun ha => hb ⟨ha, hm⟩
          simp [openStep, hn, hbb, hs, hm]
        · simp [openStep, hn, hs, hm]
      · simp [openStep, hn, hb, hs]
  · simp [openStep, hn]

/-- Field discipline of a position still in the active set: OPEN, close
fields untouched. -/
def ActiveOk (op : Operation) : Prop :=
  op.status = OpStatus.OPEN ∧ op.close_time = none ∧ op.close_price = none

/-- Field discipline of a position in the closed log: CLOSED, but close_time
and close_price never assigned by the source. -/
def ClosedOk (op : Operation) : Prop :=
  op.status = OpStatus.CLOSED ∧ op.close_time = none ∧ op.close_price = none

/-- Invariant of the simulation state: every active position is OPEN with
untouched close fields, every logged position is CLOSED with untouched close
fields. -/
def GoodState (s : BTState) : Prop :=
  (∀ op ∈ s.active, ActiveOk op) ∧ (∀ op ∈ s.closed, ClosedOk op)

/-- One bar of simulation preserves the field discipline. -/
theorem barStep_good (p : Params) (commission : ℚ) (s : BTState) (b : SigBar)
    (hs : GoodState s) : GoodState (barStep p commission s b) := by
  obtain ⟨hact, hcl⟩ := hs
  have hact1 : ∀ op ∈ (closeStep commission b.close s.cash s.active).2.1, ActiveOk op :=
    fun op hop => hact op (closeStep_active_mem commission b.close s.cash s.active op hop)
  have hcl1 : ∀ op ∈ s.closed ++ (closeStep commission b.close s.cash s.active).2.2,
      ClosedOk op := by
    intro op hop
    rcases List.mem_append.mp hop with h | h
    · exact hcl op h
    · obtain ⟨hstatus, -, -⟩ :=
        closeStep_closed_pnl commission b.close s.cash s.active op h
      obtain ⟨src, hsrc, hct, hcp⟩ :=
        closeStep_closed_src commission b.close s.cash s.active op h
      obtain ⟨-, hsct, hscp⟩ := hact src hsrc
      exact ⟨hstatus, hct.trans hsct, hcp.trans hscp⟩
  by_cases hdeg : (closeStep commission b.close s.cash s.active).1 +
      longValue b.close (closeStep commission b.close s.cash s.active).2.1 ≤ 0
  · simp only [barStep, if_pos hdeg]
    exact ⟨hact1, hcl1⟩
  · simp only [barStep, if_neg hdeg]
    refine ⟨?_, hcl1⟩
    intro op hop
    rcases List.mem_append.mp hop with h | h
    · exact hact1 op h
    · obtain ⟨hstatus, hct, hcp, -⟩ :=
        (openStep_new p commission b (closeStep commission b.close s.cash s.active).1).2 op h
      exact ⟨hstatus, hct, hcp⟩

/-- One bar of simulation appends exactly one equity point, stamped with the
bar's timestamp. -/
theorem barStep_hist_ts (p : Params) (commission : ℚ) (s : BTState) (b : SigBar) :
    ((barStep p commission s b).hist).map EquityPoint.ts =
      (s.hist.map EquityPoint.ts) ++ [b.ts] := by
  by_cases hdeg : (closeStep commission b.close s.cash s.active).1 +
      longValue b.close (closeStep commission b.close s.cash s.active).2.1 ≤ 0
  · simp [barStep, if_pos hdeg]
  · simp [barStep, if_neg hdeg]

/-- One bar of simulation leaves the closed log and active set of the state
it returns governed by the step lemmas; the history over a whole fold of
bars is the starting history followed by one stamp per bar. -/
theorem foldl_hist_ts (p : Params) (commission : ℚ) :
    ∀ (bars : List SigBar) (s : BTState),
      ((bars.foldl (barStep p commission) s).hist).map EquityPoint.ts =
        (s.hist.map EquityPoint.ts) ++ bars.map SigBar.ts
  | [], s => by simp
  | b :: bars, s => by
      rw [List.foldl_cons, foldl_hist_ts p commission bars (barStep p commission s b),
        barStep_hist_ts]
      simp

/-- Overwriting the last equity value does not change the timestamps. -/
theorem setLastValue_map_ts (v : ℚ) :
    ∀ h : List EquityPoint,
      (setLastValue v h).map EquityPoint.ts = h.map EquityPoint.ts
  | [] => rfl
  | [_] => rfl
  | e :: e' :: rest => by
      simpa [setLastValue] using setLastValue_map_ts v (e' :: rest)

/-- Overwriting the last equity value of a non-empty curve makes that value
the last one. -/
theorem lastValue_setLastValue (v : ℚ) :
    ∀ h : List EquityPoint, h ≠ [] → lastValue (setLastValue v h) = v
  | [], h0 => absurd rfl h0
  | [e], _ => by simp [setLastValue, lastValue]
  | e :: e' :: rest, _ => by
      have ih := lastValue_setLastValue v (e' :: rest) (by simp)
      obtain ⟨y, ys, hy⟩ : ∃ y ys, setLastValue v (e' :: rest) = y :: ys := by
        cases rest with
        | nil => exact ⟨_, _, rfl⟩
        | cons x xs => exact ⟨_, _, rfl⟩
      have h2 : lastValue (y :: ys) = v := by rw [← hy]; exact ih
      have h1 : setLastValue v (e :: e' :: rest) = e :: setLastValue v (e' :: rest) := rfl
      rw [h1, hy]
      calc lastValue (e :: y :: ys) = lastValue (y :: ys) := by
            simp [lastValue, List.getLast?_cons_cons]
        _ = v := h2

/-- Claim C2, amended: after the final forced liquidation the last
equity-curve entry's value equals the returned final cash, and every position
in the returned open-positions list still has status OPEN — the liquidation
credits cash for them but does not empty the list. -/
theorem c2_last_equity_equals_cash (bars : List SigBar) (first_ts : Nat)
    (last_price initial_cash commission : ℚ) (p : Params) :
    lastValue (run_backtest_on_signals bars first_ts last_price
        initial_cash commission p).hist =
      (run_backtest_on_signals bars first_ts last_price
        initial_cash commission p).cash ∧
    ∀ op ∈ (run_backtest_on_signals bars first_ts last_price
        initial_cash commission p).active,
      op.status = OpStatus.OPEN := by
  have hgood : GoodState (bars.foldl (barStep p commission)
      { cash := initial_cash, active := [], closed := [],
        hist := [{ ts := first_ts, value := initial_cash }] }) :=
    foldl_preserve GoodState (barStep p commission)
      (fun s b hs => barStep_good p commission s b hs) bars _
      ⟨fun op hop => by simp at hop, fun op hop => by simp at hop⟩
  have hne : (bars.foldl (barStep p commission)
      { cash := initial_cash, active := [], closed := [],
        hist := [{ ts := first_ts, value := initial_cash }] }).hist ≠ [] := by
    intro h0
    have hts := foldl_hist_ts p commission bars
      { cash := initial_cash, active := [], closed := [],
        hist := [{ ts := first_ts, value := initial_cash }] }
    rw [h0] at hts
    simp at hts
  constructor
  · simp only [run_backtest_on_signals]
    exact lastValue_setLastValue _ _ hne
  · intro op hop
    simp only [run_backtest_on_signals] at hop
    exact (hgood.1 op hop).1

/-- Claim C2 witness at a concrete input: a one-bar run with an open LONG. -/
theorem c2_last_equity_equals_cash_witness :
    lastValue (run_backtest_on_signals
        [{ ts := 5, close := 100, buy_signal := true, sell_signal := false }]
        5 100 2000 0 pEx).hist =
      (run_backtest_on_signals
        [{ ts := 5, close := 100, buy_signal := true, sell_signal := false }]
        5 100 2000 0 pEx).cash ∧
    ∀ op ∈ (run_backtest_on_signals
        [{ ts := 5, close := 100, buy_signal := true, sell_signal := false }]
        5 100 2000 0 pEx).active,
      op.status = OpStatus.OPEN :=
  c2_last_equity_equals_cash
    [{ ts := 5, close := 100, buy_signal := true, sell_signal := false }]
    5 100 2000 0 pEx

/-- Claim C3: on a decorated bar sequence of length n the equity curve has
exactly n + 1 entries — the initial entry plus one per bar, whatever trading
happens — and under the spec's precondition that the input timestamps are
ordered, the curve's timestamps are monotonically ordered. -/
theorem c3_equity_curve_shape (bars : List SigBar) (first_ts : Nat)
    (last_price initial_cash commission : ℚ) (p : Params)
    (hmono : List.Chain' (· ≤ ·) (first_ts :: bars.map SigBar.ts)) :
    (run_backtest_on_signals bars first_ts last_price
        initial_cash commission p).hist.length = bars.length + 1 ∧
    List.Chain' (· ≤ ·)
      (((run_backtest_on_signals bars first_ts last_price
        initial_cash commission p).hist).map EquityPoint.ts) := by
  have hts : ((run_backtest_on_signals bars first_ts last_price
      initial_cash commission p).hist).map EquityPoint.ts =
      first_ts :: bars.map SigBar.ts := by
    simp only [run_backtest_on_signals]
    rw [setLastValue_map_ts, foldl_hist_ts]
    simp
  refine ⟨?_, ?_⟩
  · have hlen := congrArg List.length hts
    simpa using hlen
  · rw [hts]
    exact hmono

/-- Claim C3 witness at a concrete input: two ordered bars give a three-point
monotone curve. -/
theorem c3_equity_curve_shape_witness :
    (run_backtest_on_signals
        [{ ts := 0, close := 100, buy_signal := false, sell_signal := false },
         { ts := 1, close := 50, buy_signal := false, sell_signal := false }]
        0 50 1000 0 pEx).hist.length = 2 + 1 ∧
    List.Chain' (· ≤ ·)
      (((run_backtest_on_signals
        [{ ts := 0, close := 100, buy_signal := false, sell_signal := false },
         { ts := 1, close := 50, buy_signal := false, sell_signal := false }]
        0 50 1000 0 pEx).hist).map EquityPoint.ts) :=
  c3_equity_curve_shape
    [{ ts := 0, close := 100, buy_signal := false, sell_signal := false },
     { ts := 1, close := 50, buy_signal := false, sell_signal := false }]
    0 50 1000 0 pEx (by simp [List.chain'_cons])

/-- Claim C4, amended: on a non-degenerate bar (equity after the close pass
is positive) the equity value appended is cash plus the LONG mark-to-market
plus, per SHORT, `open_price·quantity + (open_price − P)·quantity` — the
commission-free margin, not the commission-inclusive reserved margin. -/
theorem c4_valuation_amended (p : Params) (commission : ℚ) (s : BTState)
    (b : SigBar)
    (hpos : 0 < (closeStep commission b.close s.cash s.active).1 +
      longValue b.close (closeStep commission b.close s.cash s.active).2.1) :
    (barStep p commission s b).hist = s.hist ++
      [{ ts := b.ts,
         value := (barStep p commission s b).cash +
           longValue b.close (barStep p commission s b).active +
           shortEquity b.close (barStep p commission s b).active }] := by
  have hneg : ¬((closeStep commission b.close s.cash s.active).1 +
      longValue b.close (closeStep commission b.close s.cash s.active).2.1 ≤ 0) :=
    not_le.mpr hpos
  simp only [barStep, if_neg hneg]

/-- Claim C4 witness at a concrete input: the short-opening bar of the
counterexample satisfies the amended valuation. -/
theorem c4_valuation_amended_witness :
    (0 : ℚ) < (closeStep (1 / 10) (100 : ℚ) 1000 []).1 +
      longValue 100 (closeStep (1 / 10) (100 : ℚ) 1000 []).2.1 ∧
    (barStep pEx (1 / 10)
        { cash := 1000, active := [], closed := [], hist := [] }
        { ts := 0, close := 100, buy_signal := false, sell_signal := true }).hist =
      [] ++
      [{ ts := 0,
         value := (barStep pEx (1 / 10)
             { cash := 1000, active := [], closed := [], hist := [] }
             { ts := 0, close := 100, buy_signal := false, sell_signal := true }).cash +
           longValue 100 (barStep pEx (1 / 10)
             { cash := 1000, active := [], closed := [], hist := [] }
             { ts := 0, close := 100, buy_signal := false, sell_signal := true }).active +
           shortEquity 100 (barStep pEx (1 / 10)
             { cash := 1000, active := [], closed := [], hist := [] }
             { ts := 0, close := 100, buy_signal := false, sell_signal := true }).active }] :=
  ⟨by norm_num [closeStep, longValue],
   c4_valuation_amended pEx (1 / 10)
     { cash := 1000, active := [], closed := [], hist := [] }
     { ts := 0, close := 100, buy_signal := false, sell_signal := true }
     (by norm_num [closeStep, longValue])⟩

/-- Claim C5: every position the close pass emits stores, for a LONG, the
commission-exclusive pnl `(P − open)·quantity`, and for a SHORT the
commission-netted pnl `(open − P)·quantity·(1 − commission)`; and the cash
after the pass credits `P·quantity·(1 − commission)` per closed LONG and
`pnl + open·quantity·(1 + commission)` per closed SHORT. -/
theorem c5_close_accounting (commission P cash : ℚ) (act : List Operation) :
    (∀ op ∈ (closeStep commission P cash act).2.2,
      op.status = OpStatus.CLOSED ∧
      (op.type = Side.LONG → op.pnl = (P - op.open_price) * op.n_shares) ∧
      (op.type = Side.SHORT →
        op.pnl = (op.open_price - P) * op.n_shares * (1 - commission))) ∧
    (closeStep commission P cash act).1 =
      cash + (((closeStep commission P cash act).2.2).map (fun op =>
        if op.type = Side.LONG then P * op.n_shares * (1 - commission)
        else op.pnl + op.open_price * op.n_shares * (1 + commission))).sum :=
  ⟨closeStep_closed_pnl commission P cash act, closeStep_cash commission P cash act⟩

/-- Claim C5 witness at a concrete input: a LONG taken profit at 115. -/
theorem c5_close_accounting_witness :
    (∀ op ∈ (closeStep (1 / 10) 115 0
        [{ open_time := 0, open_price := 100, n_shares := 5, type := Side.LONG,
           stop_loss := 90, take_profit := 110 }]).2.2,
      op.status = OpStatus.CLOSED ∧
      (op.type = Side.LONG → op.pnl = ((115 : ℚ) - op.open_price) * op.n_shares) ∧
      (op.type = Side.SHORT →
        op.pnl = (op.open_price - 115) * op.n_shares * (1 - 1 / 10))) ∧
    (closeStep (1 / 10) 115 0
        [{ open_time := 0, open_price := 100, n_shares := 5, type := Side.LONG,
           stop_loss := 90, take_profit := 110 }]).1 =
      0 + (((closeStep (1 / 10) 115 0
        [{ open_time := 0, open_price := 100, n_shares := 5, type := Side.LONG,
           stop_loss := 90, take_profit := 110 }]).2.2).map (fun op =>
        if op.type = Side.LONG then 115 * op.n_shares * (1 - 1 / 10)
        else op.pnl + op.open_price * op.n_shares * (1 + 1 / 10))).sum :=
  c5_close_accounting (1 / 10) 115 0
    [{ open_time := 0, open_price := 100, n_shares := 5, type := Side.LONG,
       stop_loss := 90, take_profit := 110 }]

/-- Claim C6, amended: in every run, every position in the closed log is
CLOSED with its `close_time` and `close_price` still None (never assigned),
and every still-open position is OPEN with both fields None as well; only
`status` and `pnl` change at close. -/
theorem c6_close_fields_amended (bars : List SigBar) (first_ts : Nat)
    (last_price initial_cash commission : ℚ) (p : Params) :
    (∀ op ∈ (run_backtest_on_signals bars first_ts last_price
        initial_cash commission p).closed,
      op.status = OpStatus.CLOSED ∧ op.close_time = none ∧ op.close_price = none) ∧
    (∀ op ∈ (run_backtest_on_signals bars first_ts last_price
        initial_cash commission p).active,
      op.status = OpStatus.OPEN ∧ op.close_time = none ∧ op.close_price = none) := by
  have hgood : GoodState (bars.foldl (barStep p commission)
      { cash := initial_cash, active := [], closed := [],
        hist := [{ ts := first_ts, value := initial_cash }] }) :=
    foldl_preserve GoodState (barStep p commission)
      (fun s b hs => barStep_good p commission s b hs) bars _
      ⟨fun op hop => by simp at hop, fun op hop => by simp at hop⟩
  constructor
  · intro op hop
    simp only [run_backtest_on_signals] at hop
    exact hgood.2 op hop
  · intro op hop
    simp only [run_backtest_on_signals] at hop
    exact hgood.1 op hop

/-- Claim C6 witness at a concrete input: the take-profit run of the
counterexample satisfies the amended field discipline. -/
theorem c6_close_fields_amended_witness :
    (∀ op ∈ (run_backtest_on_signals
        [{ ts := 0, close := 100, buy_signal := true, sell_signal := false },
         { ts := 1, close := 115, buy_signal := false, sell_signal := false }]
        0 115 1000 0 pEx).closed,
      op.status = OpStatus.CLOSED ∧ op.close_time = none ∧ op.close_price = none) ∧
    (∀ op ∈ (run_backtest_on_signals
        [{ ts := 0, close := 100, buy_signal := true, sell_signal := false },
         { ts := 1, close := 115, buy_signal := false, sell_signal := false }]
        0 115 1000 0 pEx).active,
      op.status = OpStatus.OPEN ∧ op.close_time = none ∧ op.close_price = none) :=
  c6_close_fields_amended
    [{ ts := 0, close := 100, buy_signal := true, sell_signal := false },
     { ts := 1, close := 115, buy_signal := false, sell_signal := false }]
    0 115 1000 0 pEx

/-- Claim C9: a bar opens at most one position, so never both a LONG and a
SHORT; a SHORT is opened only when the LONG branch did not consume the entry
slot (the buy signal and its cash requirement did not both hold), and a LONG
is opened exactly under the buy branch's guard — LONG has priority when both
signals fire. -/
theorem c9_long_priority (p : Params) (commission : ℚ) (b : SigBar) (cash : ℚ) :
    (openStep p commission b cash).2.length ≤ 1 ∧
    (∀ op ∈ (openStep p commission b cash).2, op.type = Side.SHORT →
      ¬(b.buy_signal = true ∧
        b.close * (cash * p.pct_cash / b.close) * (1 + commission) ≤ cash)) ∧
    (∀ op ∈ (openStep p commission b cash).2, op.type = Side.LONG →
      b.buy_signal = true ∧
        b.close * (cash * p.pct_cash / b.close) * (1 + commission) ≤ cash) := by
  refine ⟨(openStep_new p commission b cash).1, ?_, ?_⟩
  all_goals
    by_cases hn : 0 < cash * p.pct_cash / b.close
  · by_cases hb : b.buy_signal = true ∧
        b.close * (cash * p.pct_cash / b.close) * (1 + commission) ≤ cash
    · intro op hop hty
      simp [openStep, hn, hb] at hop
      subst hop
      simp at hty
    · by_cases hs : b.sell_signal = true
      · by_cases hm : b.close * (cash * p.pct_cash / b.close) * (1 + commission) ≤ cash
        · intro op hop hty
          exact hb
        · intro op hop hty
          simp [openStep, hn, hs, hm] at hop
      · intro op hop hty
        simp [openStep, hn, hb, hs] at hop
  · intro op hop hty
    simp [openStep, hn] at hop
  · by_cases hb : b.buy_signal = true ∧
        b.close * (cash * p.pct_cash / b.close) * (1 + commission) ≤ cash
    · intro op hop hty
      exact hb
    · by_cases hs : b.sell_signal = true
      · by_cases hm : b.close * (cash * p.pct_cash / b.close) * (1 + commission) ≤ cash
        · intro op hop hty
          have hbb : ¬(b.buy_signal = true) := fun ha => hb ⟨ha, hm⟩
          simp [openStep, hn, hbb, hs, hm] at hop
          subst hop
          simp at hty
        · intro op hop hty
          simp [openStep, hn, hs, hm] at hop
      · intro op hop hty
        simp [openStep, hn, hb, hs] at hop
  · intro op hop hty
    simp [openStep, hn] at hop

/-- Claim C9 witness at a concrete input: a bar with both signals true and
ample cash opens only the LONG. -/
theorem c9_long_priority_witness :
    (openStep pEx 0
        { ts := 0, close := 100, buy_signal := true, sell_signal := true }
        1000).2.length ≤ 1 ∧
    (∀ op ∈ (openStep pEx 0
        { ts := 0, close := 100, buy_signal := true, sell_signal := true }
        1000).2, op.type = Side.SHORT →
      ¬((true : Bool) = true ∧
        (100 : ℚ) * (1000 * pEx.pct_cash / 100) * (1 + 0) ≤ 1000)) ∧
    (∀ op ∈ (openStep pEx 0
        { ts := 0, close := 100, buy_signal := true, sell_signal := true }
        1000).2, op.type = Side.LONG →
      (true : Bool) = true ∧
        (100 : ℚ) * (1000 * pEx.pct_cash / 100) * (1 + 0) ≤ 1000) :=
  c9_long_priority pEx 0
    { ts := 0, close := 100, buy_signal := true, sell_signal := true } 1000

/-- A curve has fewer than two distinct values exactly when all its values
are equal. -/
theorem nunique_lt_two_iff (l : List ℚ) :
    nunique l < 2 ↔ ∀ a ∈ l, ∀ b ∈ l, a = b := by
  constructor
  · intro h a ha b hb
    have h01 : l.dedup.length = 0 ∨ l.dedup.length = 1 := by
      unfold nunique at h
      omega
    rcases h01 with h0 | h1
    · have hnil : l = [] := (List.dedup_eq_nil l).mp (List.length_eq_zero.mp h0)
      subst hnil
      simp at ha
    · obtain ⟨x, hx⟩ := List.length_eq_one.mp h1
      have hax : a ∈ l.dedup := List.mem_dedup.mpr ha
      have hbx : b ∈ l.dedup := List.mem_dedup.mpr hb
      rw [hx, List.mem_singleton] at hax hbx
      rw [hax, hbx]
  · intro hall
    rcases hd : l.dedup with _ | ⟨x, _ | ⟨y, t⟩⟩
    · simp [nunique, hd]
    · simp [nunique, hd]
    · exfalso
      have hnd := l.nodup_dedup
      rw [hd] at hnd
      have hx : x ∈ l := List.mem_dedup.mp (by rw [hd]; simp)
      have hy : y ∈ l := List.mem_dedup.mp (by rw [hd]; simp)
      have hxy : x = y := hall x hx y hy
      subst hxy
      simp at hnd

/-- Claim C7: the fitness-only Calmar returns the -1 sentinel exactly on an
empty curve, a curve with fewer than two distinct values, empty period
returns, or a non-positive maximum drawdown; otherwise it returns the
annualized mean return divided by the maximum drawdown of the
peak-relative drawdown series. -/
theorem c7_calmar_branches (l : List ℚ) :
    ((l = [] ∨ (∀ a ∈ l, ∀ b ∈ l, a = b) ∨ pct_change_dropna l = [] ∨
        listMax (drawdown_list l) ≤ 0) →
      calculate_calmar_for_optimization l = -1) ∧
    ((l ≠ [] ∧ (∃ a ∈ l, ∃ b ∈ l, a ≠ b) ∧ pct_change_dropna l ≠ [] ∧
        0 < listMax (drawdown_list l)) →
      calculate_calmar_for_optimization l =
        listMean (pct_change_dropna l) * (24 * 365) /
          listMax (drawdown_list l)) := by
  constructor
  · intro h
    simp only [calculate_calmar_for_optimization]
    rcases h with h | h | h | h
    · rw [if_pos (Or.inl h)]
    · rw [if_pos (Or.inr ((nunique_lt_two_iff l).mpr h))]
    · by_cases h1 : l = [] ∨ nunique l < 2
      · rw [if_pos h1]
      · rw [if_neg h1, if_pos h]
    · by_cases h1 : l = [] ∨ nunique l < 2
      · rw [if_pos h1]
      · rw [if_neg h1]
        by_cases h2 : pct_change_dropna l = []
        · rw [if_pos h2]
        · rw [if_neg h2, if_neg (not_lt.mpr h)]
  · rintro ⟨h1, h2, h3, h4⟩
    simp only [calculate_calmar_for_optimization]
    have hn2 : ¬(nunique l < 2) := by
      rw [nunique_lt_two_iff]
      intro hall
      obtain ⟨a, ha, b, hb, hab⟩ := h2
      exact hab (hall a ha b hb)
    rw [if_neg (fun hcase => hcase.elim h1 hn2), if_neg h3, if_pos h4]

/-- Claim C7 witness at concrete inputs: a halving curve hits the quotient
branch, a constant curve hits the sentinel. -/
theorem c7_calmar_branches_witness :
    calculate_calmar_for_optimization [100, 50] =
      listMean (pct_change_dropna [100, 50]) * (24 * 365) /
        listMax (drawdown_list [100, 50]) ∧
    calculate_calmar_for_optimization [100, 100] = -1 :=
  ⟨(c7_calmar_branches [100, 50]).2
    ⟨by simp,
     ⟨100, by simp, 50, by simp, by norm_num⟩,
     by simp [pct_change_dropna],
     by norm_num [drawdown_list, cummax, cummaxAux, listMax, max_def]⟩,
   (c7_calmar_branches [100, 100]).1
    (Or.inr (Or.inl (by
      intro a ha b hb
      simp at ha hb
      rw [ha, hb])))⟩

/-- A fold that appends one image per element is the map. -/
theorem foldl_append_map {α β : Type} (g : β → α) :
    ∀ (l : List β) (acc : List α),
      (l.foldl (fun a x => a ++ [g x]) acc) = acc ++ l.map g
  | [], acc => by simp
  | x :: l, acc => by
      rw [List.foldl_cons, foldl_append_map g l]
      simp

/-- The objective's accumulated results are one fold_score per fold. -/
theorem objective_eq (K : IndicatorKernels) (folds : List (List Bar))
    (p : Params) :
    objective K folds p = listMean (folds.map fun fold => fold_score K fold p) := by
  unfold objective
  have hfun : (fun (acc : List ℚ) fold =>
      let r := run_backtest K fold 1000000 (1 / 800) p
      if r.closed.length < 10 then acc ++ [(-1 : ℚ)]
      else acc ++ [calculate_calmar_for_optimization (r.hist.map EquityPoint.value)]) =
      fun (acc : List ℚ) fold => acc ++ [fold_score K fold p] := by
    funext acc fold
    dsimp only [fold_score]
    by_cases h : (run_backtest K fold 1000000 (1 / 800) p).closed.length < 10
    · rw [if_pos h, if_pos h]
    · rw [if_neg h, if_neg h]
  rw [hfun, foldl_append_map]
  simp

/-- Claim C8: over non-empty folds the objective is the arithmetic mean of
the per-fold scores, and a fold scores exactly -1 when its backtest closes
fewer than 10 trades, its fitness-only Calmar otherwise. -/
theorem c8_objective_scoring (K : IndicatorKernels) (folds : List (List Bar))
    (p : Params) (_hne : folds ≠ []) :
    objective K folds p =
      ((folds.map fun fold => fold_score K fold p).sum) / (folds.length : ℚ) ∧
    ∀ fold ∈ folds,
      ((run_backtest K fold 1000000 (1 / 800) p).closed.length < 10 →
        fold_score K fold p = -1) ∧
      (¬(run_backtest K fold 1000000 (1 / 800) p).closed.length < 10 →
        fold_score K fold p =
          calculate_calmar_for_optimization
            ((run_backtest K fold 1000000 (1 / 800) p).hist.map
              EquityPoint.value)) := by
  refine ⟨?_, ?_⟩
  · rw [objective_eq]
    unfold listMean
    rw [List.length_map]
  · intro fold hfold
    constructor
    · intro h
      dsimp only [fold_score]
      rw [if_pos h]
    · intro h
      dsimp only [fold_score]
      rw [if_neg h]

/-- Concrete indicator kernels for witness evaluation: neutral values that
trigger none of the eight signal conditions under `pEx`. -/
def kEx : IndicatorKernels :=
  { rsi := fun closes _ => closes.map fun _ => some 50,
    bb_high := fun closes _ => closes.map fun c => some (c + 1),
    bb_low := fun closes _ => closes.map fun c => some (c - 1),
    stoch_k := fun _ _ closes _ _ => closes.map fun _ => some 50,
    macd_line := fun closes _ _ => closes.map fun _ => some 0,
    macd_signal_line := fun closes _ _ _ => closes.map fun _ => some 0 }

/-- Claim C8 witness at a concrete input: one single-bar fold under neutral
kernels closes no trade, so its score is the -1 penalty. -/
theorem c8_objective_scoring_witness :
    objective kEx [[{ ts := 0, high := 101, low := 99, close := 100 }]] pEx =
      (([[{ ts := 0, high := 101, low := 99, close := 100 }]].map fun fold =>
        fold_score kEx fold pEx).sum) /
        (([[{ ts := 0, high := 101, low := 99, close := 100 }]] :
          List (List Bar)).length : ℚ) ∧
    ∀ fold ∈ ([[{ ts := 0, high := 101, low := 99, close := 100 }]] :
        List (List Bar)),
      ((run_backtest kEx fold 1000000 (1 / 800) pEx).closed.length < 10 →
        fold_score kEx fold pEx = -1) ∧
      (¬(run_backtest kEx fold 1000000 (1 / 800) pEx).closed.length < 10 →
        fold_score kEx fold pEx =
          calculate_calmar_for_optimization
            ((run_backtest kEx fold 1000000 (1 / 800) pEx).hist.map
              EquityPoint.value)) :=
  c8_objective_scoring kEx [[{ ts := 0, high := 101, low := 99, close := 100 }]]
    pEx (by simp)

/-- Claim C10: two raw frames agreeing on index and price columns produce
identical backtest outputs whatever signal columns are attached to them —
run_backtest recomputes the signals from the prices alone (line 32) and never
reads caller-attached signal columns. -/
theorem c10_signal_independence (K : IndicatorKernels) (p : Params)
    (initial_cash commission : ℚ) (df1 df2 : List Bar)
    (h : df1.map Bar.price = df2.map Bar.price) :
    run_backtest K df1 initial_cash commission p =
      run_backtest K df2 initial_cash commission p := by
  simp only [run_backtest]
  rw [h]

/-- Claim C10 witness at a concrete input: flipping the attached signal
columns of a one-bar frame leaves the run unchanged. -/
theorem c10_signal_independence_witness :
    run_backtest kEx
        [{ ts := 0, high := 101, low := 99, close := 100,
           buy_signal := true, sell_signal := false }] 1000 0 pEx =
      run_backtest kEx
        [{ ts := 0, high := 101, low := 99, close := 100,
           buy_signal := false, sell_signal := true }] 1000 0 pEx :=
  c10_signal_independence kEx pEx 1000 0
    [{ ts := 0, high := 101, low := 99, close := 100,
       buy_signal := true, sell_signal := false }]
    [{ ts := 0, high := 101, low := 99, close := 100,
       buy_signal := false, sell_signal := true }] rfl

end BT
